import Mathlib

/-!
Verification of the PS-PPO learning engine of the FlatlandChallenge repository
(`src/ps_ppo/ps_ppo_flatland.py`), as a shallow embedding in Lean 4.

Scalars produced by exact arithmetic in the source are modelled over `ℚ`
(and over `ℝ` where a square root occurs); Python lists become `List`,
per-agent parallel arrays become functions from agent handles, fallible
constructors become `Except`, and the in-place optimization loop becomes
explicit state passing over an abstract parameter type.  Torch results that
are NaN (a Bessel-corrected standard deviation with zero degrees of freedom)
are modelled as `Option.none`, and the tensor shapes that affect results —
the critic's `(n, 1)` output column, which makes the n-step branch's final
subtraction broadcast to a matrix — are modelled explicitly.
-/

namespace Flatland

/-! ## Experience buffer (`Memory`) -/

/-- Python slice `l[-1:]`: the suffix keeping only the final element
(empty when `l` is empty). -/
def lastSlice {α : Type} (l : List α) : List α :=
  l.drop (l.length - 1)

/-- The experience buffer of `Memory.__init__`: six parallel per-agent
sequences, indexed by the integer agent handle. -/
structure Memory (S A L M R : Type) where
  numAgents : Nat
  actions : Nat → List A
  states : Nat → List S
  logsOfActionProb : Nat → List L
  masks : Nat → List M
  rewards : Nat → List R
  dones : Nat → List Bool

/-- `Memory.clear_memory_except_last(agent)`: each of the six sequences of
`agent` is replaced by its Python slice `[-1:]`. -/
def Memory.clearMemoryExceptLast {S A L M R : Type} (m : Memory S A L M R)
    (agent : Nat) : Memory S A L M R :=
  { m with
    actions := Function.update m.actions agent (lastSlice (m.actions agent))
    states := Function.update m.states agent (lastSlice (m.states agent))
    logsOfActionProb :=
      Function.update m.logsOfActionProb agent (lastSlice (m.logsOfActionProb agent))
    masks := Function.update m.masks agent (lastSlice (m.masks agent))
    rewards := Function.update m.rewards agent (lastSlice (m.rewards agent))
    dones := Function.update m.dones agent (lastSlice (m.dones agent)) }

/-! ## Advantage estimator (`PsPPO._get_advs`) -/

/-- The GAE branch of `PsPPO._get_advs`: backward loop
`delta = r[t] + df*V[t+1]*nd[t] - V[t]`, `gaes[t] = delta + df*lb*nd[t]*future`,
with `future` starting at `0`.  The recursion consumes the three lists in
step; the tail of the value list supplies `V[t+1]`. -/
def gaeList (df lb : ℚ) : List ℚ → List Bool → List ℚ → List ℚ
  | r :: rs, d :: ds, v :: vs =>
    let rest := gaeList df lb rs ds vs
    let nd : ℚ := if d then 0 else 1
    (r + df * vs.headD 0 * nd - v + df * lb * nd * rest.headD 0) :: rest
  | _, _, _ => []

/-- The n-step branch of `PsPPO._get_advs`: backward loop
`returns[t] = r[t] + df*future*nd[t]` with `future` seeded by the trailing
value estimate `vT`. -/
def nstepReturns (df vT : ℚ) : List ℚ → List Bool → List ℚ
  | r :: rs, d :: ds =>
    let rest := nstepReturns df vT rs ds
    let nd : ℚ := if d then 0 else 1
    (r + df * rest.headD vT * nd) :: rest
  | _, _ => []

/-- A tensor value produced by `_get_advs`: the GAE branch yields a 1-D
tensor, the n-step branch a 2-D one (see `broadcastSubColumn`). -/
inductive TorchTensor where
  | vec : List ℚ → TorchTensor
  | mat : List (List ℚ) → TorchTensor
deriving DecidableEq

/-- Broadcast subtraction of a shape-`(n, 1)` column tensor from a
shape-`(n,)` tensor, as torch performs it: the result is the `n × n` matrix
with entry `[i][j] = row[j] - column[i]`.  `column` holds the scalar entries
of the critic's `(n, 1)` output slice. -/
def broadcastSubColumn (row column : List ℚ) : List (List ℚ) :=
  column.map (fun v => row.map (fun g => g - v))

/-- The n-step branch's result `returns - state_estimated_value[:-1]`:
`returns` has shape `(T,)` but the critic slice keeps its shape `(T, 1)`
(no `.squeeze()` here, unlike the value-loss line), so the subtraction
broadcasts to a `T × T` matrix. -/
def nstepAdvs (df : ℚ) (rewards : List ℚ) (dones : List Bool)
    (values : List ℚ) : List (List ℚ) :=
  broadcastSubColumn
    (nstepReturns df (values.getLastD 0) rewards dones) values.dropLast

/-- `PsPPO._get_advs`, dispatching on the estimator mode chosen at
construction; `values` lists the scalar entries of the critic's `(n, 1)`
output.  The GAE branch's `assert len(rewards) + 1 ==
len(state_estimated_value)` is modelled by returning `none` on violation;
the GAE branch produces a 1-D tensor, the n-step branch a 2-D one. -/
def getAdvs (gaeMode : Bool) (df lb : ℚ) (rewards : List ℚ)
    (dones : List Bool) (values : List ℚ) : Option TorchTensor :=
  if gaeMode then
    if rewards.length + 1 = values.length then
      some (.vec (gaeList df lb rewards dones values))
    else none
  else
    some (.mat (nstepAdvs df rewards dones values))

/-! ## Policy construction (`PsPPOPolicy.__init__`) -/

/-- A layer descriptor: the shallow embedding keeps the shape of the
`OrderedDict` built by `_build_network` without materializing tensors. -/
inductive Layer where
  | linear : Int → Int → Layer
  | relu : Layer
  | tanh : Layer
deriving DecidableEq

/-- Whether a fallible computation raised (`Except.error`). -/
def isError {ε α : Type} : Except ε α → Bool
  | .error _ => true
  | .ok _ => false

/-- `PsPPOPolicy._get_activation`: only the names `"ReLU"` and `"Tanh"` are
recognized; anything else raises. -/
def getActivation (activation : String) : Except String Layer :=
  if activation = "ReLU" then .ok .relu
  else if activation = "Tanh" then .ok .tanh
  else .error "The specified activation function don't exists or is not available"

/-- The `for layer in range(1, nn_depth)` loop of `_build_network`: the last
index adds the output linear layer; every other index adds a hidden linear
layer followed by an activation layer (whose construction can raise). -/
def buildLoop (nnType activation : String) (nnWidth outputSize nnDepth : Int) :
    List Nat → Except String (List (String × Layer))
  | [] => .ok []
  | layer :: rest =>
    if (layer : Int) = nnDepth - 1 then
      match buildLoop nnType activation nnWidth outputSize nnDepth rest with
      | .error msg => .error msg
      | .ok tail =>
        .ok ((nnType ++ "_layer_" ++ toString layer, Layer.linear nnWidth outputSize) :: tail)
    else
      match getActivation activation with
      | .error msg => .error msg
      | .ok act =>
        match buildLoop nnType activation nnWidth outputSize nnDepth rest with
        | .error msg => .error msg
        | .ok tail =>
          .ok ((nnType ++ "_layer_" ++ toString layer, Layer.linear nnWidth nnWidth) ::
               (nnType ++ "_layer_" ++ toString layer ++ "_activation(" ++ activation ++ ")", act) ::
               tail)

/-- The body of `PsPPOPolicy._build_network` once `output_size` and
`nn_type` have been computed: raises on depth `≤ 0`; adds the input layer,
an activation after it when depth `> 1`, then the hidden/output layers. -/
def buildNetworkCore (stateSize : Int) (nnType : String) (outputSize : Int)
    (activation : String) (nnDepth nnWidth : Int) :
    Except String (List (String × Layer)) :=
  if nnDepth ≤ 0 then .error "Networks' depths must be greater than 0"
  else
    let firstLayer := (nnType ++ "_input",
      Layer.linear stateSize (if 1 < nnDepth then nnWidth else outputSize))
    if 1 < nnDepth then
      match getActivation activation with
      | .error msg => .error msg
      | .ok act =>
        match buildLoop nnType activation nnWidth outputSize nnDepth
            (List.range' 1 (nnDepth.toNat - 1)) with
        | .error msg => .error msg
        | .ok rest =>
          .ok (firstLayer ::
            (nnType ++ "_input_activation(" ++ activation ++ ")", act) :: rest)
    else
      match buildLoop nnType activation nnWidth outputSize nnDepth
          (List.range' 1 (nnDepth.toNat - 1)) with
      | .error msg => .error msg
      | .ok rest => .ok (firstLayer :: rest)

/-- `PsPPOPolicy._build_network`: `output_size` is the action count for the
actor and `1` for the critic; `nn_type` names the layers. -/
def buildNetwork (stateSize actionSize : Int) (activation : String)
    (isActor : Bool) (nnDepth nnWidth : Int) :
    Except String (List (String × Layer)) :=
  buildNetworkCore stateSize (if isActor then "actor" else "critic")
    (if isActor then actionSize else 1) activation nnDepth nnWidth

/-- The training parameters consulted during network construction. -/
structure TrainParams where
  shared : Bool
  criticMlpDepth : Int
  criticMlpWidth : Int
  actorMlpDepth : Int
  actorMlpWidth : Int
  activation : String

/-- The two layer stacks held by a constructed `PsPPOPolicy`. -/
structure PsPPOPolicyNet where
  criticNetwork : List (String × Layer)
  actorNetwork : List (String × Layer)
deriving DecidableEq

/-- The network-creation part of `PsPPOPolicy.__init__`: build the critic;
in separate mode also build the actor; in shared mode raise when the critic
depth is `≤ 1`, otherwise copy the critic layers, drop the last one
(`popitem`) and append the actor output layer. -/
def initPsPPOPolicy (stateSize actionSize : Int) (p : TrainParams) :
    Except String PsPPOPolicyNet :=
  match buildNetwork stateSize actionSize p.activation false
      p.criticMlpDepth p.criticMlpWidth with
  | .error msg => .error msg
  | .ok criticLayers =>
    if !p.shared then
      match buildNetwork stateSize actionSize p.activation true
          p.actorMlpDepth p.actorMlpWidth with
      | .error msg => .error msg
      | .ok actorLayers => .ok ⟨criticLayers, actorLayers⟩
    else
      if p.criticMlpDepth ≤ 1 then
        .error "Shared networks must have depth greater than 1"
      else
        .ok ⟨criticLayers,
          criticLayers.dropLast ++
            [("actor_output_layer", Layer.linear p.criticMlpWidth actionSize)]⟩

/-! ## Checkpoint restoring (`PsPPOPolicy.load`) -/

/-- `PsPPOPolicy.load`: the file system is modelled as a partial map from
paths to saved parameter blobs; when the path exists its blob replaces the
current parameters, otherwise a failure is logged and the current parameters
are kept. -/
def loadPolicy {P : Type} (fileSystem : String → Option P) (path : String)
    (current : P) : P :=
  match fileSystem path with
  | some saved => saved
  | none => current

/-! ## Mini-batch slicing in `PsPPO.update` -/

/-- Python slice `l[a:b]` for `0 ≤ a ≤ b`. -/
def pySlice {α : Type} (l : List α) (a b : Nat) : List α :=
  (l.take b).drop a

/-- `range(0, len, batchSize)`: the mini-batch start offsets visited by the
inner loop of `PsPPO.update`. -/
def batchStarts (len batchSize : Nat) : List Nat :=
  (List.range ((len + batchSize - 1) / batchSize)).map (fun i => i * batchSize)

/-- The state slice handed to `policy_evaluate` for one mini-batch: when
`batch_end >= len(old_states)` the detached bootstrap transition is
re-appended, otherwise the slice extends one past the batch end.  The critic
returns one value estimate per entry of this list. -/
def evalStates {S : Type} (oldStates : List S) (lastState : S)
    (batchSize start : Nat) : List S :=
  if oldStates.length ≤ start + batchSize then
    pySlice oldStates start (start + batchSize) ++ [lastState]
  else
    pySlice oldStates start (start + batchSize + 1)

/-- The rewards (equally: dones) slice handed to `_get_advs` for one
mini-batch: always `memory.rewards[a][batch_start:batch_end]`. -/
def batchRewards {R : Type} (rewards : List R) (batchSize start : Nat) : List R :=
  pySlice rewards start (start + batchSize)

/-! ## The update cycle's two policies (`PsPPO.update`) -/

/-- The two concurrently live parameter snapshots of `PsPPO`: the policy
being optimized and the old/behavior policy. -/
structure PsPPOState (P : Type) where
  policy : P
  policyOld : P
deriving DecidableEq

/-- One mini-batch body of `PsPPO.update`: evaluation, loss and the optimizer
step read and write only the current policy (abstracted as `step`, indexed by
the batch start offset); `policy_old` is not touched. -/
def miniBatchStep {P : Type} (step : Nat → P → P) (b : Nat)
    (s : PsPPOState P) : PsPPOState P :=
  { s with policy := step b s.policy }

/-- The full sequence of mini-batch iterations of one `update` call:
`epochs` passes over the batch start offsets. -/
def batchSchedule (epochs : Nat) (batches : List Nat) : List Nat :=
  (List.range epochs).flatMap (fun _ => batches)

/-- The epoch/mini-batch optimization loop of `PsPPO.update`. -/
def runOptimization {P : Type} (step : Nat → P → P) (epochs : Nat)
    (batches : List Nat) (s : PsPPOState P) : PsPPOState P :=
  (batchSchedule epochs batches).foldl (fun st b => miniBatchStep step b st) s

/-- Every intermediate state reached during the optimization loop, the
initial state included. -/
def optimizationStates {P : Type} (step : Nat → P → P) (epochs : Nat)
    (batches : List Nat) (s : PsPPOState P) : List (PsPPOState P) :=
  List.scanl (fun st b => miniBatchStep step b st) s (batchSchedule epochs batches)

/-- `PsPPO.update`: run the optimization loop, then copy the new weights
into the old policy (`self.policy_old.load_state_dict(self.policy.state_dict())`). -/
def update {P : Type} (step : Nat → P → P) (epochs : Nat)
    (batches : List Nat) (s : PsPPOState P) : PsPPOState P :=
  let s1 := runOptimization step epochs batches s
  { s1 with policyOld := s1.policy }

/-! ## Advantage standardization (`PsPPO.update`, line 361) -/

/-- `torch.mean` on a 1-D tensor (the slices standardized by `update` are
non-empty, so the length is nonzero wherever this is used). -/
noncomputable def torchMean (l : List ℝ) : ℝ := l.sum / l.length

/-- The Bessel-corrected sample variance underlying `torch.std`.  With
fewer than two elements the degrees of freedom are `≤ 0` and torch produces
NaN (for one element the float computation is `0/0`); `none` models that
NaN. -/
noncomputable def torchVarUnbiased (l : List ℝ) : Option ℝ :=
  if l.length ≤ 1 then none
  else some (((l.map (fun a => (a - torchMean l) ^ 2)).sum) / ((l.length : ℝ) - 1))

/-- `torch.std` on a 1-D tensor (square root of the unbiased variance);
NaN propagates. -/
noncomputable def torchStd (l : List ℝ) : Option ℝ :=
  (torchVarUnbiased l).map Real.sqrt

/-- `advantage = (advantage - torch.mean(advantage)) / (torch.std(advantage) + 1e-10)`:
a NaN standard deviation contaminates every entry of the result. -/
noncomputable def normalizeAdvantage (l : List ℝ) : Option (List ℝ) :=
  (torchStd l).map (fun s => l.map (fun a => (a - torchMean l) / (s + 1 / 10 ^ 10)))

/-! ## Helper lemmas -/

theorem lastSlice_eq_getLast? {α : Type} (l : List α) (h : l ≠ []) :
    lastSlice l = l.getLast?.toList := by
  induction l with
  | nil => exact absurd rfl h
  | cons x xs ih =>
    cases xs with
    | nil => rfl
    | cons y ys =>
      have hstep : lastSlice (x :: y :: ys) = lastSlice (y :: ys) := by
        simp [lastSlice]
      rw [hstep, ih (by simp), List.getLast?_cons_cons]

theorem lastSlice_length {α : Type} (l : List α) (h : l ≠ []) :
    (lastSlice l).length = 1 := by
  rw [lastSlice_eq_getLast? l h]
  rcases hlast : l.getLast? with _ | y
  · exact absurd (List.getLast?_eq_none_iff.mp hlast) h
  · rfl

theorem headD_eq_getD {α : Type} (l : List α) (d : α) : l.headD d = l.getD 0 d := by
  cases l <;> rfl

/-- C4: for an agent whose six parallel buffer sequences are all non-empty,
`clear_memory_except_last` leaves each sequence of length one, containing
exactly its previous final element. -/
theorem clearMemoryExceptLast_keeps_last {S A L M R : Type} (m : Memory S A L M R)
    (a : Nat) (h1 : m.actions a ≠ []) (h2 : m.states a ≠ [])
    (h3 : m.logsOfActionProb a ≠ []) (h4 : m.masks a ≠ [])
    (h5 : m.rewards a ≠ []) (h6 : m.dones a ≠ []) :
    ((m.clearMemoryExceptLast a).actions a).length = 1 ∧
    ((m.clearMemoryExceptLast a).states a).length = 1 ∧
    ((m.clearMemoryExceptLast a).logsOfActionProb a).length = 1 ∧
    ((m.clearMemoryExceptLast a).masks a).length = 1 ∧
    ((m.clearMemoryExceptLast a).rewards a).length = 1 ∧
    ((m.clearMemoryExceptLast a).dones a).length = 1 ∧
    (m.clearMemoryExceptLast a).actions a = (m.actions a).getLast?.toList ∧
    (m.clearMemoryExceptLast a).states a = (m.states a).getLast?.toList ∧
    (m.clearMemoryExceptLast a).logsOfActionProb a = (m.logsOfActionProb a).getLast?.toList ∧
    (m.clearMemoryExceptLast a).masks a = (m.masks a).getLast?.toList ∧
    (m.clearMemoryExceptLast a).rewards a = (m.rewards a).getLast?.toList ∧
    (m.clearMemoryExceptLast a).dones a = (m.dones a).getLast?.toList := by
  simp only [Memory.clearMemoryExceptLast, Function.update_same]
  exact ⟨lastSlice_length _ h1, lastSlice_length _ h2, lastSlice_length _ h3,
    lastSlice_length _ h4, lastSlice_length _ h5, lastSlice_length _ h6,
    lastSlice_eq_getLast? _ h1, lastSlice_eq_getLast? _ h2, lastSlice_eq_getLast? _ h3,
    lastSlice_eq_getLast? _ h4, lastSlice_eq_getLast? _ h5, lastSlice_eq_getLast? _ h6⟩

/-- C4 witness: a concrete buffer with two transitions for agent `0`. -/
theorem clearMemoryExceptLast_keeps_last_witness :
    ((Memory.clearMemoryExceptLast
      (⟨1, fun _ => [1, 2], fun _ => [3, 4], fun _ => [5, 6], fun _ => [7, 8],
        fun _ => [9, 10], fun _ => [true, false]⟩ : Memory Nat Nat Nat Nat Nat)
      0).actions 0).length = 1 ∧
    (Memory.clearMemoryExceptLast
      (⟨1, fun _ => [1, 2], fun _ => [3, 4], fun _ => [5, 6], fun _ => [7, 8],
        fun _ => [9, 10], fun _ => [true, false]⟩ : Memory Nat Nat Nat Nat Nat)
      0).actions 0 = [2] := by
  have h := clearMemoryExceptLast_keeps_last
    (⟨1, fun _ => [1, 2], fun _ => [3, 4], fun _ => [5, 6], fun _ => [7, 8],
      fun _ => [9, 10], fun _ => [true, false]⟩ : Memory Nat Nat Nat Nat Nat)
    0 (by simp) (by simp) (by simp) (by simp) (by simp) (by simp)
  exact ⟨h.1, h.2.2.2.2.2.2.1.trans (by simp)⟩

/-- C8: loading from a path that does not exist on the (modelled) file system
returns the current parameters unchanged. -/
theorem loadPolicy_missing_path {P : Type} (fileSystem : String → Option P)
    (path : String) (current : P) (h : fileSystem path = none) :
    loadPolicy fileSystem path current = current := by
  simp [loadPolicy, h]

/-- C8 witness: an empty file system and concrete parameters. -/
theorem loadPolicy_missing_path_witness :
    ((fun _ : String => (none : Option Nat)) "checkpoint.pt" = none) ∧
    loadPolicy (fun _ : String => (none : Option Nat)) "checkpoint.pt" 7 = 7 :=
  ⟨rfl, loadPolicy_missing_path _ "checkpoint.pt" 7 rfl⟩

theorem scanl_miniBatch_policyOld {P : Type} (step : Nat → P → P) :
    ∀ (l : List Nat) (s : PsPPOState P),
    ∀ s' ∈ List.scanl (fun st b => miniBatchStep step b st) s l,
      s'.policyOld = s.policyOld := by
  intro l
  induction l with
  | nil =>
    intro s s' h
    simp [List.scanl] at h
    rw [h]
  | cons b bs ih =>
    intro s s' h
    rw [List.scanl] at h
    rcases List.mem_cons.mp h with h0 | h1
    · rw [h0]
    · exact (ih (miniBatchStep step b s) s' h1).trans rfl

/-- C3: during the epoch/mini-batch loop of one `update` call the old policy
is never modified (every intermediate state carries the initial old policy),
and the only change to it is the single final copy of the current policy's
parameters. -/
theorem update_policyOld_stationary {P : Type} (step : Nat → P → P)
    (epochs : Nat) (batches : List Nat) (s : PsPPOState P) :
    (∀ s' ∈ optimizationStates step epochs batches s, s'.policyOld = s.policyOld) ∧
    (update step epochs batches s).policyOld =
      (runOptimization step epochs batches s).policy := by
  exact ⟨scanl_miniBatch_policyOld step (batchSchedule epochs batches) s, rfl⟩

/-- C3 witness: two epochs over two mini-batches with a concrete step
function; a mid-loop state still carries the initial old policy, while the
state after `update` carries the final optimized policy. -/
theorem update_policyOld_stationary_witness :
    (⟨4, 42⟩ : PsPPOState Nat) ∈
      optimizationStates (fun b p => p + b + 1) 2 [0, 2] ⟨0, 42⟩ ∧
    (⟨4, 42⟩ : PsPPOState Nat).policyOld = (⟨0, 42⟩ : PsPPOState Nat).policyOld ∧
    (update (fun b p => p + b + 1) 2 [0, 2] (⟨0, 42⟩ : PsPPOState Nat)).policyOld = 8 := by
  refine ⟨by decide, ?_, ?_⟩
  · exact (update_policyOld_stationary (fun b p => p + b + 1) 2 [0, 2] ⟨0, 42⟩).1
      ⟨4, 42⟩ (by decide)
  · exact ((update_policyOld_stationary (fun b p => p + b + 1) 2 [0, 2] ⟨0, 42⟩).2).trans
      (by decide)

theorem torchMean_const (l : List ℝ) (c : ℝ) (hne : l ≠ [])
    (hall : ∀ x ∈ l, x = c) : torchMean l = c := by
  have hsum : l.sum = l.length • c := List.sum_eq_card_nsmul l c hall
  have hlen : (l.length : ℝ) ≠ 0 := by
    have := List.length_pos.mpr hne
    exact_mod_cast Nat.pos_iff_ne_zero.mp this
  rw [torchMean, hsum, nsmul_eq_mul]
  field_simp

theorem torchVarUnbiased_const (l : List ℝ) (c : ℝ) (hlen : 2 ≤ l.length)
    (hall : ∀ x ∈ l, x = c) : torchVarUnbiased l = some 0 := by
  have hne : l ≠ [] := by
    intro h
    rw [h] at hlen
    simp at hlen
  have hzero : (l.map (fun a => (a - torchMean l) ^ 2)).sum = 0 := by
    apply List.sum_eq_zero
    intro y hy
    rcases List.mem_map.mp hy with ⟨x, hx, rfl⟩
    rw [hall x hx, torchMean_const l c hne hall, sub_self]
    ring
  rw [torchVarUnbiased, if_neg (by omega), hzero, zero_div]

/-- C9 counterexample: a one-element advantage slice (all of whose entries
are trivially equal) is NOT standardized to `[0]`: the Bessel-corrected
variance inside `torch.std` is the undefined `0/0`, the standard deviation
is NaN (`none`), and the whole standardized result is NaN-contaminated
rather than the all-zero sequence. -/
theorem normalizeAdvantage_singleton_nan :
    normalizeAdvantage [(5 : ℝ)] = none ∧
    normalizeAdvantage [(5 : ℝ)] ≠ some [0] := by
  constructor
  · rw [normalizeAdvantage, torchStd, torchVarUnbiased, if_pos (by simp)]
    rfl
  · rw [normalizeAdvantage, torchStd, torchVarUnbiased, if_pos (by simp)]
    simp

/-- C9 (amended): standardizing an advantage sequence of length `≥ 2` whose
entries are all equal yields the all-zero sequence; the variance is a
well-defined `0`, the standard deviation is `0`, and the epsilon keeps the
denominator at `1e-10 ≠ 0`. -/
theorem normalizeAdvantage_const_zero (l : List ℝ) (c : ℝ) (hlen : 2 ≤ l.length)
    (hall : ∀ x ∈ l, x = c) :
    torchStd l = some 0 ∧
    (0 : ℝ) + 1 / 10 ^ 10 ≠ 0 ∧
    normalizeAdvantage l = some (List.replicate l.length 0) := by
  have hne : l ≠ [] := by
    intro h
    rw [h] at hlen
    simp at hlen
  have hstd : torchStd l = some 0 := by
    rw [torchStd, torchVarUnbiased_const l c hlen hall]
    simp
  refine ⟨hstd, by norm_num, ?_⟩
  rw [normalizeAdvantage, hstd]
  simp only [Option.map_some']
  congr 1
  rw [show List.replicate l.length (0 : ℝ) =
      List.replicate (l.map (fun a => (a - torchMean l) / (0 + 1 / 10 ^ 10))).length 0
    by rw [List.length_map]]
  apply List.eq_replicate_length.mpr
  intro b hb
  rcases List.mem_map.mp hb with ⟨x, hx, rfl⟩
  rw [hall x hx, torchMean_const l c hne hall, sub_self, zero_div]

/-- C9 witness: the constant sequence `[5, 5]`. -/
theorem normalizeAdvantage_const_zero_witness :
    torchStd [(5 : ℝ), 5] = some 0 ∧
    normalizeAdvantage [(5 : ℝ), 5] = some [0, 0] := by
  have h := normalizeAdvantage_const_zero [(5 : ℝ), 5] 5 (by simp) (by
    intro x hx
    rcases List.mem_cons.mp hx with h5 | h5
    · exact h5
    · simpa using h5)
  exact ⟨h.1, h.2.2.trans (by rfl)⟩

theorem gaeList_length (df lb : ℚ) :
    ∀ (r : List ℚ) (d : List Bool) (v : List ℚ),
    (gaeList df lb r d v).length = min r.length (min d.length v.length) := by
  intro r
  induction r with
  | nil => intro d v; simp [gaeList]
  | cons x xs ih =>
    intro d v
    cases d with
    | nil => simp [gaeList]
    | cons y ys =>
      cases v with
      | nil => simp [gaeList]
      | cons z zs =>
        simp only [gaeList, List.length_cons, ih]
        omega

theorem gaeList_getD (df lb : ℚ) :
    ∀ (r : List ℚ) (d : List Bool) (v : List ℚ),
    d.length = r.length → v.length = r.length + 1 →
    ∀ t, t < r.length →
    (gaeList df lb r d v).getD t 0 =
      r.getD t 0 + df * v.getD (t + 1) 0 * (if d.getD t true then 0 else 1) - v.getD t 0
        + df * lb * (if d.getD t true then 0 else 1) * (gaeList df lb r d v).getD (t + 1) 0 := by
  intro r
  induction r with
  | nil => intro d v _ _ t ht; exact absurd ht (by simp)
  | cons r0 rs ih =>
    intro d v hd hv t ht
    cases d with
    | nil => exact absurd hd (by simp)
    | cons d0 ds =>
      cases v with
      | nil => exact absurd hv (by simp)
      | cons v0 vs =>
        cases t with
        | zero =>
          simp only [gaeList, List.getD_cons_zero, List.getD_cons_succ, headD_eq_getD]
        | succ t' =>
          simp only [gaeList, List.getD_cons_succ]
          exact ih ds vs (by simpa using hd) (by simpa using hv) t' (by simpa using ht)

/-- C1: under the length discipline of the GAE branch (`T` rewards, `T`
done-flags, `T+1` value estimates, `T ≥ 1`), the returned sequence has length
`T` and satisfies the backward recursion
`A_t = delta_t + df·lb·(1-done_t)·A_{t+1}` with `A_T = 0`
(out-of-range `getD` yields `0`); in particular a single-step window with
done `false` yields exactly `r + df·V1 - V0`. -/
theorem gae_backward_recursion (df lb : ℚ) (r : List ℚ) (d : List Bool)
    (v : List ℚ) (hd : d.length = r.length) (hv : v.length = r.length + 1)
    (_hT : 1 ≤ r.length) :
    (gaeList df lb r d v).length = r.length ∧
    (∀ t, t < r.length →
      (gaeList df lb r d v).getD t 0 =
        r.getD t 0 + df * v.getD (t + 1) 0 * (if d.getD t true then 0 else 1) - v.getD t 0
          + df * lb * (if d.getD t true then 0 else 1) * (gaeList df lb r d v).getD (t + 1) 0) ∧
    (∀ r0 v0 v1 : ℚ, gaeList df lb [r0] [false] [v0, v1] = [r0 + df * v1 - v0]) := by
  refine ⟨?_, gaeList_getD df lb r d v hd hv, ?_⟩
  · rw [gaeList_length, hd, hv]
    omega
  · intro r0 v0 v1
    simp [gaeList]

/-- C1 witness: the two-step window of the specification's end-to-end
scenario (`rewards [1, 0]`, `dones [0, 1]`, `values [1/2, 2/5, 0]`,
`df = 99/100`, `lb = 95/100`), instantiating the recursion at `t = 1`. -/
theorem gae_backward_recursion_witness :
    (gaeList (99/100) (95/100) [1, 0] [false, true] [1/2, 2/5, 0]).length = 2 ∧
    (gaeList (99/100) (95/100) [1, 0] [false, true] [1/2, 2/5, 0]).getD 1 0 = -(2/5) ∧
    (gaeList (99/100) (95/100) [1, 0] [false, true] [1/2, 2/5, 0]).getD 0 0 = 2599/5000 := by
  have h := gae_backward_recursion (99/100) (95/100) [1, 0] [false, true]
    [1/2, 2/5, 0] (by decide) (by decide) (by decide)
  exact ⟨h.1, (h.2.1 1 (by decide)).trans (by norm_num [gaeList]),
    (h.2.1 0 (by decide)).trans (by norm_num [gaeList])⟩

theorem nstepReturns_length (df vT : ℚ) :
    ∀ (r : List ℚ) (d : List Bool),
    (nstepReturns df vT r d).length = min r.length d.length := by
  intro r
  induction r with
  | nil => intro d; simp [nstepReturns]
  | cons x xs ih =>
    intro d
    cases d with
    | nil => simp [nstepReturns]
    | cons y ys =>
      simp only [nstepReturns, List.length_cons, ih]
      omega

theorem nstepReturns_getD (df vT : ℚ) :
    ∀ (r : List ℚ) (d : List Bool), d.length = r.length →
    ∀ t, t < r.length →
    (nstepReturns df vT r d).getD t vT =
      r.getD t 0 + df * (nstepReturns df vT r d).getD (t + 1) vT
        * (if d.getD t true then 0 else 1) := by
  intro r
  induction r with
  | nil => intro d _ t ht; exact absurd ht (by simp)
  | cons r0 rs ih =>
    intro d hd t ht
    cases d with
    | nil => exact absurd hd (by simp)
    | cons d0 ds =>
      cases t with
      | zero =>
        simp only [nstepReturns, List.getD_cons_zero, List.getD_cons_succ, headD_eq_getD]
      | succ t' =>
        simp only [nstepReturns, List.getD_cons_succ]
        exact ih ds (by simpa using hd) t' (by simpa using ht)

theorem getD_zipWith_sub (a b : List ℚ) (t : Nat) (x y : ℚ)
    (h1 : t < a.length) (h2 : t < b.length) :
    (List.zipWith (fun p q => p - q) a b).getD t 0 = a.getD t x - b.getD t y := by
  have hz : t < (List.zipWith (fun p q : ℚ => p - q) a b).length := by
    rw [List.length_zipWith]; omega
  rw [List.getD_eq_getElem _ _ hz, List.getD_eq_getElem _ _ h1,
    List.getD_eq_getElem _ _ h2, List.getElem_zipWith]

/-- C2 (code bug): the n-step branch does not return the claimed length-`T`
sequence `G_t - V_t`.  At the failing input (rewards `[1, 0]`, dones
`[0, 1]`, critic column `[1/2, 2/5, 0]`, discount `99/100`) the backward
returns are `[1, 0]` of shape `(2,)`, but `state_estimated_value[:-1]` keeps
the critic's shape `(2, 1)` — the `.squeeze()` applied on the value-loss
line is missing here — so the subtraction broadcasts to the `2 × 2` matrix
`[[1/2, -1/2], [3/5, -2/5]]`, whose diagonal `[1/2, -2/5]` is the sequence
the claim (and the elementwise update pipeline) expects. -/
theorem nstep_broadcast_matrix_failing_input :
    getAdvs false (99/100) (95/100) [1, 0] [false, true] [1/2, 2/5, 0] =
      some (TorchTensor.mat [[1/2, -(1/2)], [3/5, -(2/5)]]) := by
  norm_num [getAdvs, nstepAdvs, broadcastSubColumn, nstepReturns]

theorem gaeList_lambda_one (df : ℚ) :
    ∀ (r : List ℚ) (d : List Bool) (v0 : ℚ) (vs : List ℚ),
    d.length = r.length → vs.length = r.length →
    gaeList df 1 r d (v0 :: vs) =
      List.zipWith (fun x y => x - y)
        (nstepReturns df ((v0 :: vs).getLastD 0) r d) (v0 :: vs).dropLast := by
  intro r
  induction r with
  | nil =>
    intro d v0 vs hd hvs
    have hd0 : d = [] := List.length_eq_zero.mp (by simpa using hd)
    have hvs0 : vs = [] := List.length_eq_zero.mp (by simpa using hvs)
    subst hd0 hvs0
    rfl
  | cons r0 rs ih =>
    intro d v0 vs hd hvs
    cases d with
    | nil => exact absurd hd (by simp)
    | cons d0 ds =>
      cases vs with
      | nil => exact absurd hvs (by simp)
      | cons v1 vs' =>
        have hds : ds.length = rs.length := by simpa using hd
        have hvs' : vs'.length = rs.length := by simpa using hvs
        have hlast : ((v0 :: v1 :: vs').getLastD 0 : ℚ) = (v1 :: vs').getLastD 0 := by
          rw [List.getLastD_cons, List.getLastD_cons, List.getLastD_cons]
        have hIH := ih ds v1 vs' hds hvs'
        simp only [gaeList, nstepReturns, hlast, List.dropLast_cons₂, List.zipWith_cons_cons]
        rw [hIH]
        congr 1
        rcases rs with _ | ⟨r1, rs'⟩
        · -- last step of the window: the future GAE is 0 and the future
          -- return is the seed
          have hds0 : ds = [] := List.length_eq_zero.mp hds
          have hvs0 : vs' = [] := List.length_eq_zero.mp hvs'
          subst hds0 hvs0
          simp only [gaeList, nstepReturns, List.zipWith_nil_right, List.headD_nil,
            List.getLastD_cons, List.getLastD_nil]
          cases d0 <;> simp
        · rcases ds with _ | ⟨d1, ds'⟩
          · exact absurd hds (by simp)
          · rcases vs' with _ | ⟨v2, vs''⟩
            · exact absurd hvs' (by simp)
            · simp only [gaeList, nstepReturns, List.dropLast_cons₂,
                List.zipWith_cons_cons, List.headD_cons]
              cases d0
              · simp
                ring
              · simp

theorem broadcastSubColumn_getD (row col : List ℚ) (t : Nat)
    (hcol : t < col.length) :
    (broadcastSubColumn row col).getD t [] =
      row.map (fun x => x - col.getD t 0) := by
  rw [broadcastSubColumn, List.getD_eq_getElem _ _ (by simpa using hcol),
    List.getElem_map, List.getD_eq_getElem _ _ hcol]

theorem zipWith_sub_eq_broadcast_diag (row col : List ℚ) (t : Nat)
    (hrow : t < row.length) (hcol : t < col.length) :
    (List.zipWith (fun p q => p - q) row col).getD t 0 =
      ((broadcastSubColumn row col).getD t []).getD t 0 := by
  rw [getD_zipWith_sub row col t 0 0 hrow hcol,
    broadcastSubColumn_getD row col t hcol]
  rw [List.getD_eq_getElem _ _
    (show t < (row.map (fun x => x - col.getD t 0)).length by simpa using hrow)]
  rw [List.getElem_map, List.getD_eq_getElem _ _ hrow]

/-- C10 counterexample: at `lambda = 1` the two modes do NOT compute
identical outputs: on the two-step window below the GAE branch returns the
1-D tensor `[1/2, -2/5]` while the n-step branch returns the `2 × 2`
broadcast matrix `[[1/2, -1/2], [3/5, -2/5]]`. -/
theorem gae_ne_nstep_lambda_one :
    getAdvs true (99/100) 1 [1, 0] [false, true] [1/2, 2/5, 0] ≠
      getAdvs false (99/100) 1 [1, 0] [false, true] [1/2, 2/5, 0] := by
  norm_num [getAdvs, gaeList, nstepAdvs, broadcastSubColumn, nstepReturns]
  exact fun hcon => TorchTensor.noConfusion hcon

/-- C10 (amended): with `lambda = 1` and the GAE branch's length discipline,
the GAE-mode output coincides with the DIAGONAL of the n-step-mode output:
entry `t` of the GAE vector equals entry `[t][t]` of the `T × T` broadcast
matrix the n-step branch returns (the GAE recursion telescopes into the
returns-minus-baseline form); the full outputs differ in shape, so the two
modes do not coincide exactly. -/
theorem gae_eq_nstep_diag_lambda_one (df : ℚ) (r : List ℚ) (d : List Bool)
    (v : List ℚ) (hd : d.length = r.length) (hv : v.length = r.length + 1) :
    ∀ t, t < r.length →
      (gaeList df 1 r d v).getD t 0 = ((nstepAdvs df r d v).getD t []).getD t 0 := by
  intro t ht
  cases v with
  | nil => exact absurd hv (by simp)
  | cons v0 vs =>
    have hvs : vs.length = r.length := by simpa using hv
    rw [gaeList_lambda_one df r d v0 vs hd hvs, nstepAdvs]
    have hG : (nstepReturns df ((v0 :: vs).getLastD 0) r d).length = r.length := by
      rw [nstepReturns_length, hd]
      omega
    have hC : ((v0 :: vs).dropLast).length = r.length := by
      rw [List.length_dropLast]
      simpa using hv
    exact zipWith_sub_eq_broadcast_diag _ _ t (by omega) (by omega)

/-- C10 witness: a three-step window with a mid-window episode boundary,
instantiated at `t = 1`. -/
theorem gae_eq_nstep_diag_lambda_one_witness :
    (gaeList (1/2) 1 [1, 2, 3] [false, true, false] [1, 2, 3, 4]).getD 1 0 =
      ((nstepAdvs (1/2) [1, 2, 3] [false, true, false] [1, 2, 3, 4]).getD 1 []).getD 1 0 :=
  gae_eq_nstep_diag_lambda_one (1/2) [1, 2, 3] [false, true, false] [1, 2, 3, 4]
    (by decide) (by decide) 1 (by decide)

theorem batchStarts_lt (len batchSize : Nat) (hbs : 1 ≤ batchSize) :
    ∀ start ∈ batchStarts len batchSize, start < len := by
  intro start h
  rcases List.mem_map.mp h with ⟨i, hi, rfl⟩
  have hi' : i < (len + batchSize - 1) / batchSize := List.mem_range.mp hi
  have h3 : (i + 1) * batchSize ≤ len + batchSize - 1 :=
    (Nat.le_div_iff_mul_le (by omega)).mp hi'
  have h4 : i * batchSize + batchSize ≤ len + batchSize - 1 := by
    calc i * batchSize + batchSize = (i + 1) * batchSize := by ring
    _ ≤ len + batchSize - 1 := h3
  omega

theorem pySlice_length {α : Type} (l : List α) (a b : Nat) :
    (pySlice l a b).length = min b l.length - a := by
  simp [pySlice]

/-- C7: for every mini-batch start offset generated by the inner loop of
`update` over a post-pop buffer of `horizon ≥ 1` transitions, the evaluated
state slice (hence the critic's value-estimate list) is exactly one longer
than the rewards/dones slice, the rewards slice is non-empty, and the GAE
branch of `_get_advs` therefore passes its length assertion. -/
theorem minibatch_value_reward_lengths {S : Type} (oldStates : List S)
    (lastState : S) (rewards : List ℚ) (batchSize start : Nat)
    (hlen : rewards.length = oldStates.length) (hbs : 1 ≤ batchSize)
    (hmem : start ∈ batchStarts oldStates.length batchSize) :
    (evalStates oldStates lastState batchSize start).length =
      (batchRewards rewards batchSize start).length + 1 ∧
    1 ≤ (batchRewards rewards batchSize start).length ∧
    (∀ (df lb : ℚ) (dones : List Bool) (values : List ℚ),
      values.length = (evalStates oldStates lastState batchSize start).length →
      (getAdvs true df lb (batchRewards rewards batchSize start) dones values).isSome = true) := by
  have hstart : start < oldStates.length :=
    batchStarts_lt oldStates.length batchSize hbs start hmem
  have hrew : (batchRewards rewards batchSize start).length =
      min (start + batchSize) oldStates.length - start := by
    rw [batchRewards, pySlice_length, hlen]
  have heval : (evalStates oldStates lastState batchSize start).length =
      min (start + batchSize) oldStates.length - start + 1 := by
    rw [evalStates]
    split
    · rw [List.length_append, pySlice_length]
      simp
    · rw [pySlice_length]
      omega
  refine ⟨by omega, by omega, ?_⟩
  intro df lb dones values hval
  rw [getAdvs, if_pos rfl, if_pos (by omega)]
  rfl

/-- C7 witness: a three-transition window with batch size two; the final
mini-batch (start offset `2`) re-appends the bootstrap transition. -/
theorem minibatch_value_reward_lengths_witness :
    (evalStates [10, 11, 12] 13 2 2).length = (batchRewards ([1, 2, 3] : List ℚ) 2 2).length + 1 ∧
    1 ≤ (batchRewards ([1, 2, 3] : List ℚ) 2 2).length ∧
    (getAdvs true (99/100) (95/100) (batchRewards ([1, 2, 3] : List ℚ) 2 2)
      [false] [0, 0]).isSome = true := by
  have h := minibatch_value_reward_lengths [10, 11, 12] 13 ([1, 2, 3] : List ℚ) 2 2
    (by decide) (by decide) (by decide)
  exact ⟨h.1, h.2.1, h.2.2 (99/100) (95/100) [false] [0, 0] (by decide)⟩

theorem getActivation_error_iff (activation : String) :
    isError (getActivation activation) = true ↔
      (activation ≠ "ReLU" ∧ activation ≠ "Tanh") := by
  rw [getActivation]
  split
  · simp_all [isError]
  · split <;> simp_all [isError]

theorem buildLoop_ok (nnType activation : String) (nnWidth outputSize nnDepth : Int)
    (hact : isError (getActivation activation) = false) :
    ∀ ls : List Nat,
    isError (buildLoop nnType activation nnWidth outputSize nnDepth ls) = false := by
  intro ls
  induction ls with
  | nil => rfl
  | cons layer rest ih =>
    rw [buildLoop]
    split
    · cases hb : buildLoop nnType activation nnWidth outputSize nnDepth rest with
      | error msg => rw [hb] at ih; exact absurd ih (by simp [isError])
      | ok tail => rfl
    · cases ha : getActivation activation with
      | error msg => rw [ha] at hact; exact absurd hact (by simp [isError])
      | ok act =>
        cases hb : buildLoop nnType activation nnWidth outputSize nnDepth rest with
        | error msg => rw [hb] at ih; exact absurd ih (by simp [isError])
        | ok tail => rfl

theorem buildNetworkCore_error_iff (stateSize : Int) (nnType : String)
    (outputSize : Int) (activation : String) (nnDepth nnWidth : Int) :
    isError (buildNetworkCore stateSize nnType outputSize activation nnDepth nnWidth) = true ↔
      (nnDepth ≤ 0 ∨
        (1 < nnDepth ∧ activation ≠ "ReLU" ∧ activation ≠ "Tanh")) := by
  rw [buildNetworkCore]
  split
  · rename_i hneg
    simp only [isError, true_iff]
    exact Or.inl hneg
  · rename_i hpos
    split
    · rename_i hdeep
      split
      · rename_i msg ha
        have hbad := (getActivation_error_iff activation).mp (by rw [ha]; rfl)
        simp only [isError, true_iff]
        exact Or.inr ⟨hdeep, hbad⟩
      · rename_i act ha
        have hgood : isError (getActivation activation) = false := by
          rw [ha]; rfl
        have hloop := buildLoop_ok nnType activation nnWidth outputSize nnDepth hgood
          (List.range' 1 (nnDepth.toNat - 1))
        split
        · rename_i msg hb
          rw [hb] at hloop
          exact absurd hloop (by simp [isError])
        · rename_i rest hb
          have hok : ¬ (activation ≠ "ReLU" ∧ activation ≠ "Tanh") := by
            intro hcon
            have := (getActivation_error_iff activation).mpr hcon
            rw [ha] at this
            exact absurd this (by simp [isError])
          simp only [isError]
          refine iff_of_false (by simp) ?_
          intro hcon
          rcases hcon with h | h
          · exact hpos h
          · exact hok h.2
    · rename_i hshallow
      have hrange : List.range' 1 (nnDepth.toNat - 1) = [] := by
        have hone : nnDepth = 1 := by omega
        rw [hone]
        rfl
      rw [hrange]
      simp only [buildLoop, isError]
      refine iff_of_false (by simp) ?_
      intro hcon
      rcases hcon with h | h
      · exact hpos h
      · exact hshallow h.1

theorem buildNetwork_error_iff (stateSize actionSize : Int) (activation : String)
    (isActor : Bool) (nnDepth nnWidth : Int) :
    isError (buildNetwork stateSize actionSize activation isActor nnDepth nnWidth) = true ↔
      (nnDepth ≤ 0 ∨
        (1 < nnDepth ∧ activation ≠ "ReLU" ∧ activation ≠ "Tanh")) := by
  rw [buildNetwork]
  exact buildNetworkCore_error_iff stateSize _ _ activation nnDepth nnWidth

/-- C5 counterexample: with both depths `1` and separate networks, an
unrecognized activation name (`"Sigmoid"`) does NOT make construction fail
(`_get_activation` is never reached), contradicting the claimed
"if and only if". -/
theorem initPsPPOPolicy_unknown_activation_ok :
    (⟨false, 1, 8, 1, 8, "Sigmoid"⟩ : TrainParams).activation ≠ "ReLU" ∧
    (⟨false, 1, 8, 1, 8, "Sigmoid"⟩ : TrainParams).activation ≠ "Tanh" ∧
    isError (initPsPPOPolicy 4 5 ⟨false, 1, 8, 1, 8, "Sigmoid"⟩) = false := by
  refine ⟨by decide, by decide, ?_⟩
  rfl

/-- C5 (amended): construction fails iff the critic depth is `≤ 0`, or (in
separate mode) the actor depth is `≤ 0`, or shared mode is requested with
critic depth `≤ 1`, or the activation name is unrecognized AND some network
that is actually built has depth `> 1` (so an activation layer is actually
instantiated). -/
theorem initPsPPOPolicy_error_iff (stateSize actionSize : Int) (p : TrainParams) :
    isError (initPsPPOPolicy stateSize actionSize p) = true ↔
      (p.criticMlpDepth ≤ 0 ∨
       (p.shared = false ∧ p.actorMlpDepth ≤ 0) ∨
       (p.shared = true ∧ p.criticMlpDepth ≤ 1) ∨
       ((p.activation ≠ "ReLU" ∧ p.activation ≠ "Tanh") ∧
         (1 < p.criticMlpDepth ∨ (p.shared = false ∧ 1 < p.actorMlpDepth)))) := by
  have hcrit := buildNetwork_error_iff stateSize actionSize p.activation false
    p.criticMlpDepth p.criticMlpWidth
  have hactor := buildNetwork_error_iff stateSize actionSize p.activation true
    p.actorMlpDepth p.actorMlpWidth
  rw [initPsPPOPolicy]
  split
  · rename_i msg hc
    have h1 : p.criticMlpDepth ≤ 0 ∨
        (1 < p.criticMlpDepth ∧ p.activation ≠ "ReLU" ∧ p.activation ≠ "Tanh") :=
      hcrit.mp (by rw [hc]; rfl)
    simp only [isError, true_iff]
    rcases h1 with h1 | h1
    · exact Or.inl h1
    · exact Or.inr (Or.inr (Or.inr ⟨h1.2, Or.inl h1.1⟩))
  · rename_i criticLayers hc
    have hcritOk : ¬ (p.criticMlpDepth ≤ 0 ∨
        (1 < p.criticMlpDepth ∧ p.activation ≠ "ReLU" ∧ p.activation ≠ "Tanh")) := by
      intro hx
      have hcontra := hcrit.mpr hx
      rw [hc] at hcontra
      exact absurd hcontra (by simp [isError])
    split
    · rename_i hsep
      have hshared : p.shared = false := by simpa using hsep
      split
      · rename_i msg hactorRes
        have h2 : p.actorMlpDepth ≤ 0 ∨
            (1 < p.actorMlpDepth ∧ p.activation ≠ "ReLU" ∧ p.activation ≠ "Tanh") :=
          hactor.mp (by rw [hactorRes]; rfl)
        simp only [isError, true_iff]
        rcases h2 with h2 | h2
        · exact Or.inr (Or.inl ⟨hshared, h2⟩)
        · exact Or.inr (Or.inr (Or.inr ⟨h2.2, Or.inr ⟨hshared, h2.1⟩⟩))
      · rename_i actorLayers hactorRes
        have hactorOk : ¬ (p.actorMlpDepth ≤ 0 ∨
            (1 < p.actorMlpDepth ∧ p.activation ≠ "ReLU" ∧ p.activation ≠ "Tanh")) := by
          intro hx
          have hcontra := hactor.mpr hx
          rw [hactorRes] at hcontra
          exact absurd hcontra (by simp [isError])
        simp only [isError]
        refine iff_of_false (by simp) ?_
        intro hcon
        rcases hcon with h | h | h | h
        · exact hcritOk (Or.inl h)
        · exact hactorOk (Or.inl h.2)
        · simp [hshared] at h
        · rcases h.2 with h2 | h2
          · exact hcritOk (Or.inr ⟨h2, h.1⟩)
          · exact hactorOk (Or.inr ⟨h2.2, h.1⟩)
    · rename_i hsharedNeg
      have hshared : p.shared = true := by
        cases hs : p.shared
        · rw [hs] at hsharedNeg; exact absurd rfl hsharedNeg
        · rfl
      split
      · rename_i hle
        simp only [isError, true_iff]
        exact Or.inr (Or.inr (Or.inl ⟨hshared, hle⟩))
      · rename_i hgt
        simp only [isError]
        refine iff_of_false (by simp) ?_
        intro hcon
        rcases hcon with h | h | h | h
        · exact hcritOk (Or.inl h)
        · simp [hshared] at h
        · exact hgt h.2
        · rcases h.2 with h2 | h2
          · exact hcritOk (Or.inr ⟨h2, h.1⟩)
          · simp [hshared] at h2

/-- C5 (amended) witness: shared mode with critic depth `1` fails. -/
theorem initPsPPOPolicy_error_iff_witness :
    isError (initPsPPOPolicy 4 5 ⟨true, 1, 8, 1, 8, "Tanh"⟩) = true :=
  (initPsPPOPolicy_error_iff 4 5 ⟨true, 1, 8, 1, 8, "Tanh"⟩).mpr
    (Or.inr (Or.inr (Or.inl ⟨rfl, by decide⟩)))

end Flatland
